import Mathlib

/-
Formal model of the zustand-travel middleware (src/index.ts).

The middleware adapts a Zustand store to the external Travels history
engine: it partitions the object returned by the user's state creator into
data (tracked) and actions (callable, untracked), routes dispatcher calls
to either the store's native setter (while initializing) or the engine's
commit, and republishes every engine-emitted snapshot to the store merged
with the captured actions using full-replacement semantics.

External collaborators (the Travels engine and the Zustand store) are not
part of this repository; they are modelled from the specification's
interface section. The development-build flag is likewise modelled from
the specification, which treats the development-mode validation errors as
part of the design.
-/

/-- JavaScript runtime values, shallowly embedded. A function value is an
opaque reference identified by a numeral: two function values are the same
reference exactly when their identifiers are equal. -/
inductive JSVal where
  | num : Int → JSVal
  | str : String → JSVal
  | bool : Bool → JSVal
  | null : JSVal
  | undefined : JSVal
  | func : Nat → JSVal
  | obj : List (String × JSVal) → JSVal
  | arr : List JSVal → JSVal

/-- First-match lookup of a property in an object field list (fields of a
JS object have pairwise distinct keys, so first match is the match). -/
def getKey : List (String × JSVal) → String → Option JSVal
  | [], _ => none
  | (k1, v1) :: rest, k => if k1 = k then some v1 else getKey rest k

/-- JS property write: overwrite the existing key in place, else append. -/
def setKey : List (String × JSVal) → String → JSVal → List (String × JSVal)
  | [], k, v => [(k, v)]
  | (k1, v1) :: rest, k, v =>
      if k1 = k then (k, v) :: rest else (k1, v1) :: setKey rest k v

/-- Last-match lookup: the value the key holds after all entries of a list
have been assigned onto an object in order. -/
def lastLookup : List (String × JSVal) → String → Option JSVal
  | [], _ => none
  | (k1, v1) :: rest, k =>
      match lastLookup rest k with
      | some v => some v
      | none => if k1 = k then some v1 else none

/-- Own enumerable string-keyed entries of a value, as enumerated by object
spread, by Object.assign and by for-in: objects yield their fields, arrays
and strings yield index-keyed elements, every other value yields nothing. -/
def ownEntries : JSVal → List (String × JSVal)
  | .obj fields => fields
  | .arr xs => xs.enum.map (fun p => (toString p.1, p.2))
  | .str s => s.toList.enum.map (fun p => (toString p.1, JSVal.str (String.singleton p.2)))
  | _ => []

/-- Assign a list of entries onto an object field list in order, each write
overwriting any previous binding of its key. -/
def assignEntries (base : List (String × JSVal)) (src : List (String × JSVal)) :
    List (String × JSVal) :=
  src.foldl (fun acc p => setKey acc p.1 p.2) base

/-- Property read on a value: only objects expose named properties here. -/
def getProp : JSVal → String → Option JSVal
  | .obj fields, k => getKey fields k
  | _, _ => none

/-- Result of Object.assign with a fresh object target: copies the own
enumerable entries of the first source, then of the second, later writes
winning. This is also the meaning of a two-part object spread. -/
def jsMergeNew (a b : JSVal) : JSVal :=
  .obj (assignEntries (assignEntries [] (ownEntries a)) (ownEntries b))

/-- Object.assign onto an existing object draft: assigns the source's own
enumerable entries onto the draft (src/index.ts line 137). -/
def objectAssign (draft src : JSVal) : JSVal :=
  match draft with
  | .obj fields => .obj (assignEntries fields (ownEntries src))
  | d => d

/-- JS truthiness test, negated, for the guard at src/index.ts line 64. -/
def isFalsy : JSVal → Bool
  | .null => true
  | .undefined => true
  | .bool b => !b
  | .num n => n == 0
  | .str s => s == ""
  | _ => false

/-- Result of the JS typeof operator. -/
def typeofStr : JSVal → String
  | .num _ => "number"
  | .str _ => "string"
  | .bool _ => "boolean"
  | .undefined => "undefined"
  | .func _ => "function"
  | .null => "object"
  | .obj _ => "object"
  | .arr _ => "object"

/-- Test for null or undefined. -/
def isNullish : JSVal → Bool
  | .null => true
  | .undefined => true
  | _ => false

/-- Array.isArray. -/
def isArr : JSVal → Bool
  | .arr _ => true
  | _ => false

/-- A plain non-array object, the only admissible shape for an initial
state per the specification. -/
def isPlainNonArrayObject : JSVal → Bool
  | .obj _ => true
  | _ => false

/-- Callable test on a value. -/
def isCallable : JSVal → Bool
  | .func _ => true
  | _ => false

/-- JavaScript exceptions: TypeError values raised by the middleware's own
validation, and arbitrary user-thrown values. -/
inductive JSError where
  | typeError (msg : String)
  | thrown (v : JSVal)

/-- Message of the TypeError thrown at src/index.ts line 117. -/
def msgNullUpdater : String :=
  "[zustand-travel] State updater cannot be null or undefined"

/-- Message of the TypeError thrown at src/index.ts line 158. -/
def msgNullInitial : String :=
  "[zustand-travel] Initializer must return an initial state object"

/-- Message head of the TypeError thrown at src/index.ts line 65. -/
def msgNotObject : String :=
  "[zustand-travel] Expected an object as initial state, received: "

/-- Message of the TypeError thrown at src/index.ts line 70. -/
def msgIsArray : String :=
  "[zustand-travel] Expected an object as initial state, received an array"

/-- An updater passed to a set function. A callable updater is represented
by the fn constructor carrying its state-transformer semantics (the model
gives opaque function references no call behaviour of their own); val
carries values dispatched as plain data. A transformer either returns the
resulting state or throws. -/
inductive UpdaterArg where
  | fn (f : JSVal → Except JSError JSVal)
  | val (v : JSVal)

/-- The null-or-undefined test the dispatcher performs on its updater
argument (src/index.ts line 116). -/
def updaterIsNullish : UpdaterArg → Bool
  | .val .null => true
  | .val .undefined => true
  | _ => false

/-- Modelled from the spec (section 6, Host State Container): the Zustand
store's native setState semantics on an already-computed next state. With
replace true the next state replaces the data entirely; with replace false
it is shallow-merged onto the current state; with replace absent the merge
happens only for a non-null object next state. The reference-identity
short-circuit that merely suppresses listener notification is omitted: it
never changes the resulting state. -/
def zustandSetState (state next : JSVal) (replace : Option Bool) : JSVal :=
  match replace with
  | some true => next
  | some false => jsMergeNew state next
  | none =>
      match next with
      | .obj _ => jsMergeNew state next
      | .arr _ => jsMergeNew state next
      | _ => next

/-- Modelled from the spec (section 6, Host State Container): the full
native update primitive, applying a callable updater to the current state
first. An exception from the callable propagates. -/
def zustandNativeUpd (state : JSVal) (u : UpdaterArg) (replace : Option Bool) :
    Except JSError JSVal :=
  match u with
  | .fn f =>
      match f state with
      | .error e => .error e
      | .ok next => .ok (zustandSetState state next replace)
  | .val v => .ok (zustandSetState state v replace)

/-- Modelled from the spec (section 6, History Engine): the state of one
Travels instance. The navigable history is the past snapshots, the current
snapshot and the redo future; initial is the snapshot the engine was
constructed with; cfg is the raw options object the middleware passed to
the constructor. -/
structure Travels where
  past : List JSVal
  current : JSVal
  future : List JSVal
  initial : JSVal
  cfg : List (String × JSVal)

/-- The maxHistory setting read from the engine's options object, with the
documented default of 10. -/
def cfgMaxHistory (cfg : List (String × JSVal)) : Nat :=
  match getKey cfg ("maxHistory") with
  | some (.num n) => n.toNat
  | _ => 10

/-- Modelled from the spec (section 6, History Engine): committing a new
snapshot pushes the previous current state into the past (oldest entries
dropped beyond maxHistory) and clears the redo future. -/
def travelsPush (t : Travels) (s : JSVal) : Travels :=
  let pastNew := t.past ++ [t.current]
  let k := cfgMaxHistory t.cfg
  let pastCut := if k < pastNew.length then pastNew.drop (pastNew.length - k) else pastNew
  { t with past := pastCut, current := s, future := [] }

/-- Modelled from the spec (section 4.5): step one entry back; emits the
snapshot navigated to, or nothing when no past entry exists. -/
def travelsBack (t : Travels) : Travels × Option JSVal :=
  match t.past.getLast? with
  | none => (t, none)
  | some p =>
      ({ t with past := t.past.dropLast, current := p, future := t.current :: t.future },
       some p)

/-- Modelled from the spec (section 4.5): step one entry forward. -/
def travelsForward (t : Travels) : Travels × Option JSVal :=
  match t.future with
  | [] => (t, none)
  | f :: fs =>
      ({ t with past := t.past ++ [t.current], current := f, future := fs }, some f)

/-- Modelled from the spec (section 4.5): jump to an absolute position in
the navigable history. -/
def travelsGo (t : Travels) (n : Nat) : Travels × Option JSVal :=
  let full := t.past ++ t.current :: t.future
  match full[n]? with
  | none => (t, none)
  | some s =>
      ({ t with past := full.take n, current := s, future := full.drop (n + 1) }, some s)

/-- Modelled from the spec (section 4.5): reset to the initial snapshot,
clearing the history. -/
def travelsReset (t : Travels) : Travels × Option JSVal :=
  ({ t with past := [], current := t.initial, future := [] }, some t.initial)

/-- The full ordered history of snapshots exposed by getControls. -/
def travelsGetHistory (t : Travels) : List JSVal :=
  t.past ++ t.current :: t.future

/-- Per-store bridge state: the isInitializing flag, the engine instance,
the captured actions object and the Zustand store's current state
(the closure variables of travelImpl, src/index.ts lines 100-102, plus the
host store they drive). -/
structure Sys where
  isInitializing : Bool
  engine : Travels
  actions : List (String × JSVal)
  store : JSVal

/-- The subscription callback installed at src/index.ts lines 180-183: on
every engine-emitted snapshot, build the spread of the snapshot's entries
overlaid with the captured actions and push it to the store with replace
set to true. -/
def publishSnapshot (actions : List (String × JSVal)) (store snapshot : JSVal) : JSVal :=
  zustandSetState store
    (.obj (assignEntries (assignEntries [] (ownEntries snapshot)) actions))
    (some true)

/-- One engine commit as observed through the bridge (the try block of
src/index.ts lines 123-148 around travels.setState): the transformer runs
on the engine's current snapshot; an exception propagates unmodified (the
catch clause only logs and rethrows) and, by the engine's transactional
guarantee, leaves engine and store untouched; on success the engine
records the new snapshot and the subscription callback republishes it. -/
def engineCommit (sys : Sys) (f : JSVal → Except JSError JSVal) : Except JSError Sys :=
  match f sys.engine.current with
  | .error e => .error e
  | .ok snap =>
      .ok { sys with
              engine := travelsPush sys.engine snap,
              store := publishSnapshot sys.actions sys.store snap }

/-- The dispatcher travelSet (src/index.ts lines 105-149). Routing order:
the initialization bypass forwards the call verbatim to the native store
setter; then the development-mode null-updater check; then callable
updaters go to the engine unchanged; then a plain value with truthy
replace goes to the engine as a replacement value; otherwise the plain
value is wrapped as a draft procedure assigning its own enumerable entries
onto the draft. -/
def travelSet (dev : Bool) (sys : Sys) (u : UpdaterArg) (replace : Option Bool) :
    Except JSError Sys :=
  if sys.isInitializing then
    match zustandNativeUpd sys.store u replace with
    | .error e => .error e
    | .ok st => .ok { sys with store := st }
  else if dev && updaterIsNullish u then
    .error (.typeError msgNullUpdater)
  else
    match u with
    | .fn f => engineCommit sys f
    | .val v =>
        if replace = some true then
          engineCommit sys (fun _ => .ok v)
        else
          engineCommit sys (fun draft => .ok (objectAssign draft v))

/-- Operations a caller can perform on a live store: dispatch an update
through travelSet, or navigate through the controls. -/
inductive SysOp where
  | dispatch (u : UpdaterArg) (replace : Option Bool)
  | back
  | forward
  | go (n : Nat)
  | reset

/-- Apply a navigation result: when the engine emitted a snapshot, the
subscription callback republishes it to the store. -/
def applyNav (sys : Sys) (r : Travels × Option JSVal) : Sys :=
  match r.2 with
  | none => { sys with engine := r.1 }
  | some s => { sys with engine := r.1, store := publishSnapshot sys.actions sys.store s }

/-- Run one operation. A dispatch that throws propagates its exception to
the calling action and leaves the system unchanged. -/
def runOp (dev : Bool) (sys : Sys) : SysOp → Sys
  | .dispatch u r =>
      match travelSet dev sys u r with
      | .ok sys2 => sys2
      | .error _ => sys
  | .back => applyNav sys (travelsBack sys.engine)
  | .forward => applyNav sys (travelsForward sys.engine)
  | .go n => applyNav sys (travelsGo sys.engine n)
  | .reset => applyNav sys (travelsReset sys.engine)

/-- Run a sequence of operations in call order. -/
def runOps (dev : Bool) (sys : Sys) (ops : List SysOp) : Sys :=
  ops.foldl (runOp dev) sys

/-- For-in partition of separateStateAndActions (src/index.ts lines
76-87): per key, a callable value goes to the actions object, every other
value to the state object. -/
def separatePartition (fields : List (String × JSVal)) :
    List (String × JSVal) × List (String × JSVal) :=
  fields.foldl
    (fun sa kv =>
      match kv.2 with
      | .func _ => (sa.1, setKey sa.2 kv.1 kv.2)
      | _ => (setKey sa.1 kv.1 kv.2, sa.2))
    ([], [])

/-- separateStateAndActions (src/index.ts lines 57-88). The development
build first rejects a falsy or non-object value, then an array; the
production build partitions whatever own enumerable entries the value has.
The development flag itself is modelled from the spec: it is a build-time
define not present under src, and the spec's error taxonomy treats the
checks as active. -/
def separateStateAndActions (dev : Bool) (v : JSVal) :
    Except JSError (List (String × JSVal) × List (String × JSVal)) :=
  if dev && (isFalsy v || !(typeofStr v == "object")) then
    .error (.typeError (msgNotObject ++ typeofStr v))
  else if dev && isArr v then
    .error (.typeError msgIsArray)
  else
    .ok (separatePartition (ownEntries v))

/-- Steps of the middleware's initialization body, in source order. -/
inductive InitEvent where
  | initCalled
  | partitioned
  | engineConstructed
  | markedActive
  | subscriptionRegistered
  | controlsAttached
  | threw
deriving DecidableEq, BEq

/-- Lifecycle phase of a store instance. -/
inductive Phase where
  | uninitialized
  | initializing
  | active
deriving DecidableEq

/-- Numeric rank of a phase, for stating monotonicity. -/
def phaseRank : Phase → Nat
  | .uninitialized => 0
  | .initializing => 1
  | .active => 2

/-- Effect of one initialization event on the phase: entering the creator
body sets the isInitializing flag (src/index.ts line 102), and only the
assignment at line 177 clears it. No other step touches the flag. -/
def stepPhase (p : Phase) : InitEvent → Phase
  | .initCalled => .initializing
  | .markedActive => .active
  | _ => p

/-- Phase after a prefix of the initialization trace. -/
def phaseAfter (evs : List InitEvent) : Phase :=
  evs.foldl stepPhase .uninitialized

/-- The middleware state-creator body travelImpl (src/index.ts lines
151-202) applied to the value the user's state creator returned and the
caller-supplied options object: validate the value, partition it,
construct the engine from the data subset with the mutable option forced
off, clear the isInitializing flag, register the subscription and attach
the controls. Returns the resulting bridge state (or the propagated
error) together with the ordered trace of initialization events.
Dispatcher calls made during the creator's execution are modelled
separately by travelSet with isInitializing true. -/
def travelImplRun (dev : Bool) (initialState : JSVal)
    (options : List (String × JSVal)) : Except JSError Sys × List InitEvent :=
  if dev && isNullish initialState then
    (.error (.typeError msgNullInitial), [.initCalled, .threw])
  else
    match separateStateAndActions dev initialState with
    | .error e => (.error e, [.initCalled, .threw])
    | .ok sa =>
        let cfg := assignEntries (assignEntries [] options) [("mutable", .bool false)]
        let eng : Travels :=
          { past := [], current := .obj sa.1, future := [], initial := .obj sa.1, cfg := cfg }
        (.ok { isInitializing := false, engine := eng, actions := sa.2, store := initialState },
         [.initCalled, .partitioned, .engineConstructed, .markedActive,
          .subscriptionRegistered, .controlsAttached])

/-- Sample combined state: one data field and one action. -/
def st0 : JSVal :=
  .obj [("count", .num 0), ("increment", .func 0)]

/-- Sample engine instance for concrete runs. -/
def engC : Travels :=
  { past := [], current := .obj [("count", .num 0)], future := [],
    initial := .obj [("count", .num 0)], cfg := [("mutable", .bool false)] }

/-- Sample live bridge state, as produced by initializing with st0. -/
def sysC : Sys :=
  { isInitializing := false, engine := engC,
    actions := [("increment", .func 0)], store := st0 }

/-- Sample bridge state during initialization (the engine field is unread
in this phase). -/
def sysInitC : Sys :=
  { isInitializing := true, engine := engC, actions := [], store := st0 }

/-- Sample caller options that try to name the engine's mutable flag. -/
def optsMut : List (String × JSVal) :=
  [("maxHistory", .num 3), ("mutable", .bool true)]

/-- Bridge state produced by initializing st0 under optsMut. -/
def sysC9 : Sys :=
  { isInitializing := false,
    engine := { past := [], current := .obj [("count", .num 0)], future := [],
                initial := .obj [("count", .num 0)],
                cfg := [("maxHistory", .num 3), ("mutable", .bool false)] },
    actions := [("increment", .func 0)], store := st0 }

/- Helper lemmas about object field lists. -/

theorem getKey_setKey_self (l : List (String × JSVal)) (k : String) (v : JSVal) :
    getKey (setKey l k v) k = some v := by
  induction l with
  | nil => simp [setKey, getKey]
  | cons hd tl ih =>
      obtain ⟨k1, v1⟩ := hd
      by_cases h : k1 = k
      · simp [setKey, h, getKey]
      · simp [setKey, h, getKey, ih]

theorem getKey_setKey_ne (l : List (String × JSVal)) (k1 k : String) (v : JSVal)
    (h : k1 ≠ k) : getKey (setKey l k1 v) k = getKey l k := by
  induction l with
  | nil => simp [setKey, getKey, h]
  | cons hd tl ih =>
      obtain ⟨k2, v2⟩ := hd
      by_cases h2 : k2 = k1
      · subst h2
        simp [setKey, getKey, h]
      · simp [setKey, h2, getKey, ih]

theorem getKey_assignEntries (src : List (String × JSVal)) :
    ∀ (base : List (String × JSVal)) (k : String),
    getKey (assignEntries base src) k =
      match lastLookup src k with
      | some v => some v
      | none => getKey base k := by
  induction src with
  | nil => intro base k; simp [assignEntries, lastLookup]
  | cons hd tl ih =>
      intro base k
      obtain ⟨k1, v1⟩ := hd
      have step : assignEntries base ((k1, v1) :: tl) = assignEntries (setKey base k1 v1) tl := by
        simp [assignEntries]
      rw [step, ih]
      cases htl : lastLookup tl k with
      | some v => simp [lastLookup, htl]
      | none =>
          by_cases hk : k1 = k
          · subst hk
            simp [lastLookup, htl, getKey_setKey_self]
          · simp [lastLookup, htl, hk, getKey_setKey_ne _ _ _ _ hk]

theorem lastLookup_eq_none_of_not_mem (l : List (String × JSVal)) (k : String)
    (h : k ∉ l.map Prod.fst) : lastLookup l k = none := by
  induction l with
  | nil => simp [lastLookup]
  | cons hd tl ih =>
      obtain ⟨k1, v1⟩ := hd
      simp only [List.map_cons, List.mem_cons] at h
      push_neg at h
      have h1 : k1 ≠ k := fun hk => h.1 hk.symm
      simp [lastLookup, ih h.2, h1]

theorem getKey_eq_none_of_not_mem (l : List (String × JSVal)) (k : String)
    (h : k ∉ l.map Prod.fst) : getKey l k = none := by
  induction l with
  | nil => simp [getKey]
  | cons hd tl ih =>
      obtain ⟨k1, v1⟩ := hd
      simp only [List.map_cons, List.mem_cons] at h
      push_neg at h
      have h1 : k1 ≠ k := fun hk => h.1 hk.symm
      simp [getKey, ih h.2, h1]

theorem lastLookup_eq_getKey_of_nodup (l : List (String × JSVal)) (k : String)
    (h : (l.map Prod.fst).Nodup) : lastLookup l k = getKey l k := by
  induction l with
  | nil => simp [lastLookup, getKey]
  | cons hd tl ih =>
      obtain ⟨k1, v1⟩ := hd
      simp only [List.map_cons, List.nodup_cons] at h
      by_cases hk : k1 = k
      · subst hk
        have : lastLookup tl k1 = none :=
          lastLookup_eq_none_of_not_mem tl k1 h.1
        simp [lastLookup, getKey, this]
      · simp only [lastLookup, getKey, hk, if_false, ih h.2]
        cases hg : getKey tl k <;> simp [hg, hk]

/- Facts about the publish step. -/

theorem publishSnapshot_eq (actions : List (String × JSVal)) (store snapshot : JSVal) :
    publishSnapshot actions store snapshot =
      .obj (assignEntries (assignEntries [] (ownEntries snapshot)) actions) := rfl

theorem publishSnapshot_action_key (actions : List (String × JSVal))
    (store snapshot : JSVal) (k : String) (v : JSVal)
    (hnd : (actions.map Prod.fst).Nodup) (hk : getKey actions k = some v) :
    getProp (publishSnapshot actions store snapshot) k = some v := by
  rw [publishSnapshot_eq]
  show getKey (assignEntries (assignEntries [] (ownEntries snapshot)) actions) k = some v
  rw [getKey_assignEntries, lastLookup_eq_getKey_of_nodup _ _ hnd, hk]

theorem publishSnapshot_drops (actions : List (String × JSVal))
    (store snapshot : JSVal) (k : String)
    (hs : k ∉ (ownEntries snapshot).map Prod.fst) (ha : k ∉ actions.map Prod.fst) :
    getProp (publishSnapshot actions store snapshot) k = none := by
  rw [publishSnapshot_eq]
  show getKey (assignEntries (assignEntries [] (ownEntries snapshot)) actions) k = none
  rw [getKey_assignEntries, lastLookup_eq_none_of_not_mem _ _ ha,
    getKey_assignEntries, lastLookup_eq_none_of_not_mem _ _ hs]
  simp [getKey]

/- Preservation facts about commits, dispatches and navigation. -/

theorem engineCommit_ok {sys : Sys} {f : JSVal → Except JSError JSVal} {sys2 : Sys}
    (h : engineCommit sys f = .ok sys2) :
    ∃ snap, f sys.engine.current = .ok snap ∧
      sys2 = { sys with engine := travelsPush sys.engine snap,
                        store := publishSnapshot sys.actions sys.store snap } := by
  unfold engineCommit at h
  cases hf : f sys.engine.current with
  | error e => rw [hf] at h; exact absurd h (by simp)
  | ok snap =>
      rw [hf] at h
      simp only [Except.ok.injEq] at h
      exact ⟨snap, rfl, h.symm⟩

theorem engineCommit_error {sys : Sys} {f : JSVal → Except JSError JSVal} {e : JSError}
    (hf : f sys.engine.current = .error e) : engineCommit sys f = .error e := by
  unfold engineCommit
  rw [hf]

theorem travelSet_ok_shape {dev : Bool} {sys : Sys} {u : UpdaterArg}
    {r : Option Bool} {sys2 : Sys}
    (hinit : sys.isInitializing = false) (h : travelSet dev sys u r = .ok sys2) :
    sys2.isInitializing = false ∧ sys2.actions = sys.actions ∧
      ∃ snap, sys2.store = publishSnapshot sys.actions sys.store snap := by
  unfold travelSet at h
  rw [hinit] at h
  simp only [Bool.false_eq_true, if_false] at h
  by_cases hn : (dev && updaterIsNullish u) = true
  · rw [if_pos hn] at h; exact absurd h (by simp)
  · rw [if_neg hn] at h
    cases u with
    | fn f =>
        obtain ⟨snap, _, hs⟩ := engineCommit_ok h
        subst hs
        exact ⟨hinit, rfl, snap, rfl⟩
    | val v =>
        have h2 : (if r = some true then engineCommit sys (fun _ => .ok v)
            else engineCommit sys (fun draft => .ok (objectAssign draft v))) = .ok sys2 := h
        by_cases hr : r = some true
        · rw [if_pos hr] at h2
          obtain ⟨snap, _, hs⟩ := engineCommit_ok h2
          subst hs
          exact ⟨hinit, rfl, snap, rfl⟩
        · rw [if_neg hr] at h2
          obtain ⟨snap, _, hs⟩ := engineCommit_ok h2
          subst hs
          exact ⟨hinit, rfl, snap, rfl⟩

theorem travelSet_preserves_flag {dev : Bool} {sys : Sys} {u : UpdaterArg}
    {r : Option Bool} {sys2 : Sys} (h : travelSet dev sys u r = .ok sys2) :
    sys2.isInitializing = sys.isInitializing := by
  unfold travelSet at h
  by_cases hi : sys.isInitializing = true
  · rw [hi] at h
    simp only [if_true] at h
    cases hz : zustandNativeUpd sys.store u r with
    | error e => rw [hz] at h; exact absurd h (by simp)
    | ok st =>
        rw [hz] at h
        simp only [Except.ok.injEq] at h
        rw [← h]
        exact hi.symm
  · have hi2 : sys.isInitializing = false := by
      cases hb : sys.isInitializing
      · rfl
      · exact absurd hb hi
    exact (travelSet_ok_shape hi2 h).1.trans hi2.symm

theorem applyNav_shape (sys : Sys) (r : Travels × Option JSVal) :
    (applyNav sys r).isInitializing = sys.isInitializing ∧
    (applyNav sys r).actions = sys.actions ∧
    ((applyNav sys r).store = sys.store ∨
      ∃ snap, (applyNav sys r).store = publishSnapshot sys.actions sys.store snap) := by
  unfold applyNav
  cases r.2 with
  | none => exact ⟨rfl, rfl, Or.inl rfl⟩
  | some s => exact ⟨rfl, rfl, Or.inr ⟨s, rfl⟩⟩

theorem runOp_preserves_flag (dev : Bool) (sys : Sys) (op : SysOp) :
    (runOp dev sys op).isInitializing = sys.isInitializing := by
  cases op with
  | dispatch u r =>
      show (match travelSet dev sys u r with
            | .ok s2 => s2
            | .error _ => sys).isInitializing = sys.isInitializing
      cases h : travelSet dev sys u r with
      | ok s2 => exact travelSet_preserves_flag h
      | error e => rfl
  | back => exact (applyNav_shape sys (travelsBack sys.engine)).1
  | forward => exact (applyNav_shape sys (travelsForward sys.engine)).1
  | go n => exact (applyNav_shape sys (travelsGo sys.engine n)).1
  | reset => exact (applyNav_shape sys (travelsReset sys.engine)).1

theorem runOps_preserves_flag (dev : Bool) (ops : List SysOp) :
    ∀ sys : Sys, (runOps dev sys ops).isInitializing = sys.isInitializing := by
  induction ops with
  | nil => intro sys; rfl
  | cons op tl ih =>
      intro sys
      show (runOps dev (runOp dev sys op) tl).isInitializing = sys.isInitializing
      rw [ih (runOp dev sys op), runOp_preserves_flag]

theorem runOp_inv (dev : Bool) (sys : Sys) (op : SysOp) (k : String) (v : JSVal)
    (hinit : sys.isInitializing = false)
    (hnd : (sys.actions.map Prod.fst).Nodup)
    (hag : getKey sys.actions k = some v → getProp sys.store k = some v) :
    (runOp dev sys op).isInitializing = false ∧
    (runOp dev sys op).actions = sys.actions ∧
    (getKey sys.actions k = some v → getProp (runOp dev sys op).store k = some v) := by
  cases op with
  | dispatch u r =>
      have hred : runOp dev sys (.dispatch u r) =
          match travelSet dev sys u r with
          | .ok s2 => s2
          | .error _ => sys := rfl
      cases h : travelSet dev sys u r with
      | ok s2 =>
          obtain ⟨h1, h2, snap, h3⟩ := travelSet_ok_shape hinit h
          rw [hred, h]
          refine ⟨h1, h2, fun hk => ?_⟩
          rw [h3]
          exact publishSnapshot_action_key _ _ _ _ _ hnd hk
      | error e =>
          rw [hred, h]
          exact ⟨hinit, rfl, hag⟩
  | back =>
      obtain ⟨h1, h2, h3⟩ := applyNav_shape sys (travelsBack sys.engine)
      refine ⟨h1.trans hinit, h2, fun hk => ?_⟩
      rcases h3 with h3 | ⟨snap, h3⟩
      · rw [show runOp dev sys .back = applyNav sys (travelsBack sys.engine) from rfl, h3]
        exact hag hk
      · rw [show runOp dev sys .back = applyNav sys (travelsBack sys.engine) from rfl, h3]
        exact publishSnapshot_action_key _ _ _ _ _ hnd hk
  | forward =>
      obtain ⟨h1, h2, h3⟩ := applyNav_shape sys (travelsForward sys.engine)
      refine ⟨h1.trans hinit, h2, fun hk => ?_⟩
      rcases h3 with h3 | ⟨snap, h3⟩
      · rw [show runOp dev sys .forward = applyNav sys (travelsForward sys.engine) from rfl, h3]
        exact hag hk
      · rw [show runOp dev sys .forward = applyNav sys (travelsForward sys.engine) from rfl, h3]
        exact publishSnapshot_action_key _ _ _ _ _ hnd hk
  | go n =>
      obtain ⟨h1, h2, h3⟩ := applyNav_shape sys (travelsGo sys.engine n)
      refine ⟨h1.trans hinit, h2, fun hk => ?_⟩
      rcases h3 with h3 | ⟨snap, h3⟩
      · rw [show runOp dev sys (.go n) = applyNav sys (travelsGo sys.engine n) from rfl, h3]
        exact hag hk
      · rw [show runOp dev sys (.go n) = applyNav sys (travelsGo sys.engine n) from rfl, h3]
        exact publishSnapshot_action_key _ _ _ _ _ hnd hk
  | reset =>
      obtain ⟨h1, h2, h3⟩ := applyNav_shape sys (travelsReset sys.engine)
      refine ⟨h1.trans hinit, h2, fun hk => ?_⟩
      rcases h3 with h3 | ⟨snap, h3⟩
      · rw [show runOp dev sys .reset = applyNav sys (travelsReset sys.engine) from rfl, h3]
        exact hag hk
      · rw [show runOp dev sys .reset = applyNav sys (travelsReset sys.engine) from rfl, h3]
        exact publishSnapshot_action_key _ _ _ _ _ hnd hk

theorem runOps_inv (dev : Bool) (k : String) (v : JSVal) (ops : List SysOp) :
    ∀ sys : Sys, sys.isInitializing = false →
    (sys.actions.map Prod.fst).Nodup →
    (getKey sys.actions k = some v → getProp sys.store k = some v) →
    (runOps dev sys ops).isInitializing = false ∧
    (runOps dev sys ops).actions = sys.actions ∧
    (getKey sys.actions k = some v → getProp (runOps dev sys ops).store k = some v) := by
  induction ops with
  | nil => intro sys hinit _ hag; exact ⟨hinit, rfl, hag⟩
  | cons op tl ih =>
      intro sys hinit hnd hag
      obtain ⟨h1, h2, h3⟩ := runOp_inv dev sys op k v hinit hnd hag
      have step : runOps dev sys (op :: tl) = runOps dev (runOp dev sys op) tl := rfl
      obtain ⟨g1, g2, g3⟩ := ih (runOp dev sys op) h1 (by rw [h2]; exact hnd)
        (by rw [h2]; exact h3)
      rw [step]
      refine ⟨g1, g2.trans h2, fun hk => g3 ?_⟩
      rw [h2]
      exact hk

/- Phase monotonicity machinery over initialization traces. -/

theorem stepPhase_rank_le (p : Phase) (e : InitEvent) (he : e ≠ .initCalled) :
    phaseRank p ≤ phaseRank (stepPhase p e) := by
  cases e <;> cases p <;> simp_all [stepPhase, phaseRank]

theorem foldl_stepPhase_rank_le (l : List InitEvent) :
    ∀ p : Phase, (∀ e ∈ l, e ≠ InitEvent.initCalled) →
    phaseRank p ≤ phaseRank (l.foldl stepPhase p) := by
  induction l with
  | nil => intro p _; exact le_refl _
  | cons hd tl ih =>
      intro p hl
      have h1 : phaseRank p ≤ phaseRank (stepPhase p hd) :=
        stepPhase_rank_le p hd (hl hd (List.mem_cons_self hd tl))
      have h2 : phaseRank (stepPhase p hd) ≤ phaseRank (tl.foldl stepPhase (stepPhase p hd)) :=
        ih (stepPhase p hd) (fun e he => hl e (List.mem_cons_of_mem hd he))
      exact h1.trans h2

theorem phase_mono_of_head (rest : List InitEvent)
    (hl : ∀ e ∈ rest, e ≠ InitEvent.initCalled) :
    ∀ i j, i ≤ j →
    phaseRank (phaseAfter ((InitEvent.initCalled :: rest).take i)) ≤
      phaseRank (phaseAfter ((InitEvent.initCalled :: rest).take j)) := by
  intro i j hij
  cases i with
  | zero =>
      simp only [List.take_zero, phaseAfter, List.foldl_nil]
      exact Nat.zero_le _
  | succ i1 =>
      cases j with
      | zero => exact absurd hij (by omega)
      | succ j1 =>
          have hij1 : i1 ≤ j1 := by omega
          simp only [List.take_succ_cons, phaseAfter, List.foldl_cons]
          have hsplit : rest.take j1 = rest.take i1 ++ (rest.drop i1).take (j1 - i1) := by
            have hj : j1 = i1 + (j1 - i1) := by omega
            calc rest.take j1 = rest.take (i1 + (j1 - i1)) := by rw [← hj]
              _ = rest.take i1 ++ (rest.drop i1).take (j1 - i1) :=
                  List.take_add rest i1 (j1 - i1)
          rw [hsplit, List.foldl_append]
          apply foldl_stepPhase_rank_le
      
          intro e he
          exact hl e (List.drop_subset i1 rest (List.take_subset _ _ he))

theorem not_mem_take {α : Type} (l : List α) (a : α) (ha : a ∉ l) (i : Nat) :
    a ∉ l.take i :=
  fun h => ha (List.take_subset i l h)

theorem mem_take_after {α : Type} (pre suf : List α) (a b : α)
    (ha : a ∉ pre) (hb : b ∈ pre) (i : Nat) (h : a ∈ (pre ++ suf).take i) :
    b ∈ (pre ++ suf).take i := by
  rw [List.take_append_eq_append_take] at h ⊢
  by_cases hi : i ≤ pre.length
  · exfalso
    have : i - pre.length = 0 := by omega
    rw [this, List.take_zero, List.append_nil] at h
    exact ha (List.take_subset i pre h)
  · have hlen : pre.length ≤ i := by omega
    rw [List.take_of_length_le hlen]
    exact List.mem_append_left _ hb

/- Reduction shapes of the dispatcher, one per routing branch. -/

theorem travelSet_initing (dev : Bool) (sys : Sys) (u : UpdaterArg) (r : Option Bool)
    (hinit : sys.isInitializing = true) :
    travelSet dev sys u r =
      match zustandNativeUpd sys.store u r with
      | .error e => .error e
      | .ok st => .ok { sys with store := st } := by
  unfold travelSet
  rw [hinit]
  simp

theorem travelSet_null (dev : Bool) (sys : Sys) (u : UpdaterArg) (r : Option Bool)
    (hinit : sys.isInitializing = false) (hn : (dev && updaterIsNullish u) = true) :
    travelSet dev sys u r = .error (.typeError msgNullUpdater) := by
  unfold travelSet
  rw [hinit, hn]
  simp

theorem travelSet_active_fn (dev : Bool) (sys : Sys) (f : JSVal → Except JSError JSVal)
    (r : Option Bool) (hinit : sys.isInitializing = false) :
    travelSet dev sys (.fn f) r = engineCommit sys f := by
  unfold travelSet
  rw [hinit]
  simp [updaterIsNullish]

theorem travelSet_active_val (dev : Bool) (sys : Sys) (v : JSVal) (r : Option Bool)
    (hinit : sys.isInitializing = false)
    (hn : (dev && updaterIsNullish (.val v)) = false) :
    travelSet dev sys (.val v) r =
      if r = some true then engineCommit sys (fun _ => .ok v)
      else engineCommit sys (fun draft => .ok (objectAssign draft v)) := by
  unfold travelSet
  rw [hinit, hn]
  simp

theorem separateStateAndActions_ok {dev : Bool} {v : JSVal}
    {sa : List (String × JSVal) × List (String × JSVal)}
    (h : separateStateAndActions dev v = .ok sa) :
    sa = separatePartition (ownEntries v) := by
  unfold separateStateAndActions at h
  by_cases h1 : (dev && (isFalsy v || !(typeofStr v == "object"))) = true
  · rw [if_pos h1] at h
    exact absurd h (by simp)
  · rw [if_neg h1] at h
    by_cases h2 : (dev && isArr v) = true
    · rw [if_pos h2] at h
      exact absurd h (by simp)
    · rw [if_neg h2] at h
      simp only [Except.ok.injEq] at h
      exact h.symm

/-- Claim C1: for every snapshot the history engine emits after
initialization, the store receives the object built as the snapshot's
entries overlaid with the captured behavior set, pushed with full
replacement (replace = true): the published state is exactly that object
independent of the store's previous data, every behavior entry is present
in it, every key absent from both the snapshot and the behavior set is
absent from it, and every successful engine commit leaves the store at
exactly the published form of the emitted snapshot. -/
theorem claim_C1_snapshot_published_with_replacement
    (actions : List (String × JSVal)) (store snapshot : JSVal) (k : String) (v : JSVal)
    (hnd : (actions.map Prod.fst).Nodup) :
    publishSnapshot actions store snapshot =
      .obj (assignEntries (assignEntries [] (ownEntries snapshot)) actions) ∧
    (getKey actions k = some v →
      getProp (publishSnapshot actions store snapshot) k = some v) ∧
    (k ∉ (ownEntries snapshot).map Prod.fst → k ∉ actions.map Prod.fst →
      getProp (publishSnapshot actions store snapshot) k = none) ∧
    (∀ (sys : Sys) (f : JSVal → Except JSError JSVal) (sys2 : Sys),
      engineCommit sys f = .ok sys2 →
      sys2.store = publishSnapshot sys.actions sys.store sys2.engine.current) := by
  refine ⟨publishSnapshot_eq actions store snapshot,
    fun hk => publishSnapshot_action_key _ _ _ _ _ hnd hk,
    fun hs ha => publishSnapshot_drops _ _ _ _ hs ha,
    fun sys f sys2 h => ?_⟩
  obtain ⟨snap, hf, hs⟩ := engineCommit_ok h
  subst hs
  rfl

/-- Witness for claim C1 at a concrete snapshot, store and behavior set. -/
theorem claim_C1_witness :
    getProp (publishSnapshot [("increment", .func 0)] st0 (JSVal.obj [("count", .num 5)]))
      ("increment") = some (.func 0) :=
  (claim_C1_snapshot_published_with_replacement [("increment", .func 0)] st0
    (JSVal.obj [("count", .num 5)]) ("increment") (.func 0) (by decide)).2.1 rfl

/-- Claim C2: the behavior set captured at initialization is fixed for the
store's lifetime: across any sequence of dispatched updates and
back/forward/go/reset navigations the bridge's actions object is unchanged
(no entry added or removed), and every behavior entry read from the store
afterwards is the identical function reference captured at
initialization. -/
theorem claim_C2_behavior_set_stable (dev : Bool) (sys : Sys) (ops : List SysOp)
    (k : String) (v : JSVal)
    (hinit : sys.isInitializing = false)
    (hnd : (sys.actions.map Prod.fst).Nodup)
    (hag : getKey sys.actions k = some v → getProp sys.store k = some v) :
    (runOps dev sys ops).actions = sys.actions ∧
    (getKey sys.actions k = some v → getProp (runOps dev sys ops).store k = some v) := by
  obtain ⟨_, h2, h3⟩ := runOps_inv dev k v ops sys hinit hnd hag
  exact ⟨h2, h3⟩

/-- Witness for claim C2: after an update, a back, a forward and a reset,
the store still holds the original action reference. -/
theorem claim_C2_witness :
    (runOps true sysC [SysOp.dispatch (.val (.obj [("count", .num 5)])) none,
        SysOp.back, SysOp.forward, SysOp.reset]).actions = sysC.actions ∧
    getProp (runOps true sysC [SysOp.dispatch (.val (.obj [("count", .num 5)])) none,
        SysOp.back, SysOp.forward, SysOp.reset]).store ("increment") = some (.func 0) := by
  have h := claim_C2_behavior_set_stable true sysC
    [SysOp.dispatch (.val (.obj [("count", .num 5)])) none, SysOp.back, SysOp.forward,
     SysOp.reset] ("increment") (.func 0) rfl (by decide) (fun _ => rfl)
  exact ⟨h.1, h.2 rfl⟩

/-- Claim C3: in the Active phase, dispatching a non-callable, non-null
plain value with replace falsy is the same dispatch as a draft-mutating
procedure assigning each of the value's own enumerable entries onto the
draft: the two travelSet calls are equal outright, so the committed
snapshot and the state published to the store agree. -/
theorem claim_C3_merge_equivalence (dev : Bool) (sys : Sys) (v : JSVal)
    (r : Option Bool) (hinit : sys.isInitializing = false)
    (hr : r ≠ some true) (hnc : isCallable v = false) (hnn : isNullish v = false) :
    travelSet dev sys (.val v) r =
      travelSet dev sys (.fn (fun draft => .ok (objectAssign draft v))) r := by
  have hnull : updaterIsNullish (.val v) = false := by
    cases v <;> simp_all [updaterIsNullish, isNullish]
  rw [travelSet_active_val dev sys v r hinit (by rw [hnull]; simp),
    travelSet_active_fn dev sys (fun draft => .ok (objectAssign draft v)) r hinit]
  rw [if_neg hr]

/-- Witness for claim C3 at a concrete plain value. -/
theorem claim_C3_witness :
    travelSet true sysC (.val (.obj [("count", .num 7)])) none =
      travelSet true sysC
        (.fn (fun draft => .ok (objectAssign draft (.obj [("count", .num 7)])))) none :=
  claim_C3_merge_equivalence true sysC (.obj [("count", .num 7)]) none rfl
    (by decide) rfl rfl

/-- Claim C4: a dispatcher call made while the store is initializing
forwards its exact pair of updater and replace arguments to the store's
native untracked update primitive, never invokes the history engine (the
engine state and its navigable history are unchanged), and stays in the
initializing phase. -/
theorem claim_C4_init_bypass (dev : Bool) (sys : Sys) (u : UpdaterArg) (r : Option Bool)
    (hinit : sys.isInitializing = true) :
    (travelSet dev sys u r =
      match zustandNativeUpd sys.store u r with
      | .error e => .error e
      | .ok st => .ok { sys with store := st }) ∧
    (∀ sys2, travelSet dev sys u r = .ok sys2 →
      sys2.engine = sys.engine ∧
      travelsGetHistory sys2.engine = travelsGetHistory sys.engine ∧
      sys2.isInitializing = true) := by
  refine ⟨travelSet_initing dev sys u r hinit, fun sys2 h => ?_⟩
  rw [travelSet_initing dev sys u r hinit] at h
  cases hz : zustandNativeUpd sys.store u r with
  | error e =>
      rw [hz] at h
      exact absurd h (by simp)
  | ok st =>
      rw [hz] at h
      simp only [Except.ok.injEq] at h
      rw [← h]
      exact ⟨rfl, rfl, hinit⟩

/-- Witness for claim C4 at a concrete initializing dispatch. -/
theorem claim_C4_witness :
    travelSet true sysInitC (.val (.obj [("count", .num 1)])) none =
      match zustandNativeUpd sysInitC.store (.val (.obj [("count", .num 1)])) none with
      | .error e => .error e
      | .ok st => .ok { sysInitC with store := st } :=
  (claim_C4_init_bypass true sysInitC (.val (.obj [("count", .num 1)])) none rfl).1

/-- Claim C5 counterexample: the claim states that Phase becomes Active
only after both the engine is constructed and its subscription is
registered, never before. In the code the flag is cleared at src/index.ts
line 177, before the subscription is registered at line 180: on the
concrete initial state st0, the initialization-trace prefix of length four
already contains the marked-active step but not yet the
subscription-registration step. -/
theorem claim_C5_counterexample :
    InitEvent.markedActive ∈ ((travelImplRun true st0 []).2.take 4) ∧
    InitEvent.subscriptionRegistered ∉ ((travelImplRun true st0 []).2.take 4) := by
  have h4 : ((travelImplRun true st0 []).2.take 4) = [InitEvent.initCalled,
      InitEvent.partitioned, InitEvent.engineConstructed, InitEvent.markedActive] := rfl
  rw [h4]
  exact ⟨by simp, by simp⟩

/-- Claim C5 amended: per store, Phase moves monotonically from
Uninitialized through Initializing to Active along the initialization
trace; it becomes Active only after the engine is constructed (never
before) and before the subscription is registered; and once the store is
live no operation returns it to the initializing phase. -/
theorem claim_C5_phase_order_amended (dev : Bool) (v : JSVal)
    (opts : List (String × JSVal)) :
    (∀ i j, i ≤ j →
      phaseRank (phaseAfter (((travelImplRun dev v opts).2).take i)) ≤
        phaseRank (phaseAfter (((travelImplRun dev v opts).2).take j))) ∧
    (∀ i, InitEvent.markedActive ∈ ((travelImplRun dev v opts).2).take i →
      InitEvent.engineConstructed ∈ ((travelImplRun dev v opts).2).take i) ∧
    (∀ i, InitEvent.subscriptionRegistered ∈ ((travelImplRun dev v opts).2).take i →
      InitEvent.markedActive ∈ ((travelImplRun dev v opts).2).take i) ∧
    (∀ (dv : Bool) (sys : Sys) (ops : List SysOp),
      sys.isInitializing = false → (runOps dv sys ops).isInitializing = false) := by
  have htr : (travelImplRun dev v opts).2 = [InitEvent.initCalled, InitEvent.threw] ∨
      (travelImplRun dev v opts).2 = [InitEvent.initCalled, InitEvent.partitioned,
        InitEvent.engineConstructed, InitEvent.markedActive,
        InitEvent.subscriptionRegistered, InitEvent.controlsAttached] := by
    unfold travelImplRun
    by_cases hn : (dev && isNullish v) = true
    · rw [if_pos hn]
      exact Or.inl rfl
    · rw [if_neg hn]
      cases hsep : separateStateAndActions dev v with
      | error e => exact Or.inl rfl
      | ok sa => exact Or.inr rfl
  rcases htr with h | h
  · rw [h]
    refine ⟨phase_mono_of_head [InitEvent.threw] (by simp), ?_, ?_, ?_⟩
    · intro i hi
      exact absurd hi (not_mem_take _ _ (by simp) i)
    · intro i hi
      exact absurd hi (not_mem_take _ _ (by simp) i)
    · intro dv sys ops hsys
      rw [runOps_preserves_flag]
      exact hsys
  · rw [h]
    refine ⟨phase_mono_of_head [InitEvent.partitioned, InitEvent.engineConstructed,
        InitEvent.markedActive, InitEvent.subscriptionRegistered,
        InitEvent.controlsAttached] (by simp), ?_, ?_, ?_⟩
    · intro i hi
      exact mem_take_after
        [InitEvent.initCalled, InitEvent.partitioned, InitEvent.engineConstructed]
        [InitEvent.markedActive, InitEvent.subscriptionRegistered,
         InitEvent.controlsAttached]
        InitEvent.markedActive InitEvent.engineConstructed (by simp) (by simp) i hi
    · intro i hi
      exact mem_take_after
        [InitEvent.initCalled, InitEvent.partitioned, InitEvent.engineConstructed,
         InitEvent.markedActive]
        [InitEvent.subscriptionRegistered, InitEvent.controlsAttached]
        InitEvent.subscriptionRegistered InitEvent.markedActive (by simp) (by simp) i hi
    · intro dv sys ops hsys
      rw [runOps_preserves_flag]
      exact hsys

/-- Witness for the amended claim C5 at a concrete initialization. -/
theorem claim_C5_phase_order_witness :
    phaseRank (phaseAfter (((travelImplRun true st0 []).2).take 2)) ≤
      phaseRank (phaseAfter (((travelImplRun true st0 []).2).take 5)) ∧
    InitEvent.engineConstructed ∈ ((travelImplRun true st0 []).2).take 4 := by
  have h4 : ((travelImplRun true st0 []).2).take 4 = [InitEvent.initCalled,
      InitEvent.partitioned, InitEvent.engineConstructed, InitEvent.markedActive] := rfl
  refine ⟨(claim_C5_phase_order_amended true st0 []).1 2 5 (by omega),
    (claim_C5_phase_order_amended true st0 []).2.1 4 ?_⟩
  rw [h4]
  simp

/-- Helper for claim C6: on any value that is neither null-ish nor a plain
non-array object, the partition step raises a TypeError. -/
theorem separate_fails_nonobject (v : JSVal)
    (hobj : isPlainNonArrayObject v = false) (hnn : isNullish v = false) :
    ∃ m, separateStateAndActions true v = .error (.typeError m) := by
  cases v with
  | obj fields => simp [isPlainNonArrayObject] at hobj
  | null => simp [isNullish] at hnn
  | undefined => simp [isNullish] at hnn
  | num n =>
      refine ⟨msgNotObject ++ typeofStr (.num n), ?_⟩
      unfold separateStateAndActions
      rw [if_pos]
      show (true && ((n == 0) || !(typeofStr (JSVal.num n) == "object"))) = true
      simp [typeofStr]
  | str s =>
      refine ⟨msgNotObject ++ typeofStr (.str s), ?_⟩
      unfold separateStateAndActions
      rw [if_pos]
      show (true && ((s == "") || !(typeofStr (JSVal.str s) == "object"))) = true
      simp [typeofStr]
  | bool b =>
      refine ⟨msgNotObject ++ typeofStr (.bool b), ?_⟩
      unfold separateStateAndActions
      rw [if_pos]
      show (true && (!b || !(typeofStr (JSVal.bool b) == "object"))) = true
      simp [typeofStr]
  | func n => exact ⟨msgNotObject ++ typeofStr (.func n), rfl⟩
  | arr xs => exact ⟨msgIsArray, rfl⟩

/-- Claim C6: in the development build, an initial state that is not a
plain non-array object (a non-object or an array) makes store
construction fail synchronously with a TypeError (the InvalidInitialState
error of the spec), and the failing trace never reaches engine
construction. -/
theorem claim_C6_invalid_initial_state (v : JSVal) (opts : List (String × JSVal))
    (hobj : isPlainNonArrayObject v = false) :
    (∃ m, (travelImplRun true v opts).1 = .error (.typeError m)) ∧
    InitEvent.engineConstructed ∉ (travelImplRun true v opts).2 := by
  by_cases hnn : isNullish v = true
  · have hrun : travelImplRun true v opts =
        (.error (.typeError msgNullInitial), [InitEvent.initCalled, InitEvent.threw]) := by
      unfold travelImplRun
      rw [if_pos]
      show (true && isNullish v) = true
      rw [hnn]
      rfl
    rw [hrun]
    exact ⟨⟨msgNullInitial, rfl⟩, by simp⟩
  · have hnn2 : isNullish v = false := by
      cases h : isNullish v
      · rfl
      · exact absurd h hnn
    obtain ⟨m, hsep⟩ := separate_fails_nonobject v hobj hnn2
    have hrun : travelImplRun true v opts =
        (.error (.typeError m), [InitEvent.initCalled, InitEvent.threw]) := by
      unfold travelImplRun
      rw [if_neg (by rw [hnn2]; simp), hsep]
    rw [hrun]
    exact ⟨⟨m, rfl⟩, by simp⟩

/-- Witness for claim C6 at a concrete array-valued initial state. -/
theorem claim_C6_witness :
    (∃ m, (travelImplRun true (.arr []) []).1 = .error (.typeError m)) ∧
    InitEvent.engineConstructed ∉ (travelImplRun true (.arr []) []).2 :=
  claim_C6_invalid_initial_state (.arr []) [] rfl

/-- Claim C7 counterexample: the claim quantifies over every dispatcher
call with a null or undefined updater, but a call made while the store is
still initializing raises nothing: with the concrete bridge state
sysInitC, dispatching null succeeds and is forwarded to the native setter
(which here replaces the state with null under Zustand's default-replace
rule for non-objects). -/
theorem claim_C7_counterexample :
    travelSet true sysInitC (.val JSVal.null) none =
      .ok { sysInitC with store := JSVal.null } := by
  rfl

/-- Claim C7 amended: every dispatcher call made in the Active phase (the
development build) whose updater is null or undefined fails fast with the
null-updater TypeError before any engine commit, and the system — store
state included — is unchanged by the call. -/
theorem claim_C7_null_updater_amended (sys : Sys) (u : UpdaterArg) (r : Option Bool)
    (hinit : sys.isInitializing = false)
    (hu : u = .val .null ∨ u = .val .undefined) :
    travelSet true sys u r = .error (.typeError msgNullUpdater) ∧
    runOp true sys (.dispatch u r) = sys := by
  have hn : (true && updaterIsNullish u) = true := by
    rcases hu with hu | hu <;> subst hu <;> rfl
  have h1 := travelSet_null true sys u r hinit hn
  refine ⟨h1, ?_⟩
  show (match travelSet true sys u r with
        | .ok s2 => s2
        | .error _ => sys) = sys
  rw [h1]

/-- Witness for the amended claim C7 at a concrete live store. -/
theorem claim_C7_null_updater_witness :
    travelSet true sysC (.val .null) none = .error (.typeError msgNullUpdater) ∧
    runOp true sysC (.dispatch (.val .null) none) = sysC :=
  claim_C7_null_updater_amended sysC (.val .null) none rfl (Or.inl rfl)

/-- Claim C8: an exception raised inside a draft-mutating or
snapshot-producing updater during an Active-phase commit propagates
unmodified — the very same error value — to the dispatcher's caller, and
the system, store state included, remains at the last successfully
committed snapshot. -/
theorem claim_C8_exception_propagation (dev : Bool) (sys : Sys)
    (f : JSVal → Except JSError JSVal) (r : Option Bool) (e : JSError)
    (hinit : sys.isInitializing = false)
    (hf : f sys.engine.current = .error e) :
    travelSet dev sys (.fn f) r = .error e ∧
    runOp dev sys (.dispatch (.fn f) r) = sys := by
  have h1 : travelSet dev sys (.fn f) r = .error e := by
    rw [travelSet_active_fn dev sys f r hinit]
    exact engineCommit_error hf
  refine ⟨h1, ?_⟩
  show (match travelSet dev sys (.fn f) r with
        | .ok s2 => s2
        | .error _ => sys) = sys
  rw [h1]

/-- Witness for claim C8 at a concrete throwing updater. -/
theorem claim_C8_witness :
    travelSet true sysC (.fn (fun _ => .error (.thrown (JSVal.str ("boom"))))) none =
      .error (.thrown (JSVal.str ("boom"))) ∧
    runOp true sysC
      (.dispatch (.fn (fun _ => .error (.thrown (JSVal.str ("boom"))))) none) = sysC :=
  claim_C8_exception_propagation true sysC (fun _ => .error (.thrown (JSVal.str ("boom"))))
    none (.thrown (JSVal.str ("boom"))) rfl rfl

/-- Claim C9: whenever initialization succeeds, the history engine is
constructed exactly once, from the partitioned data subset of the initial
state, and its options object carries the mutable flag forced to false —
whatever value the caller's options carried for that key. -/
theorem claim_C9_engine_construction (dev : Bool) (v : JSVal)
    (opts : List (String × JSVal)) (sys : Sys)
    (h : (travelImplRun dev v opts).1 = .ok sys) :
    getKey sys.engine.cfg ("mutable") = some (.bool false) ∧
    sys.engine.current = .obj (separatePartition (ownEntries v)).1 ∧
    (travelImplRun dev v opts).2.count InitEvent.engineConstructed = 1 := by
  unfold travelImplRun at h ⊢
  by_cases hn : (dev && isNullish v) = true
  · rw [if_pos hn] at h
    exact absurd h (by simp)
  · rw [if_neg hn] at h ⊢
    cases hsep : separateStateAndActions dev v with
    | error e =>
        rw [hsep] at h
        exact absurd h (by simp)
    | ok sa =>
        have hsa := separateStateAndActions_ok hsep
        subst hsa
        rw [hsep] at h
        simp only [Except.ok.injEq] at h
        subst h
        refine ⟨?_, rfl, rfl⟩
        show getKey (assignEntries (assignEntries [] opts) [("mutable", JSVal.bool false)])
          ("mutable") = some (JSVal.bool false)
        rw [getKey_assignEntries]
        rfl

/-- Witness for claim C9: caller options trying to set the mutable flag
are overridden. -/
theorem claim_C9_witness :
    getKey sysC9.engine.cfg ("mutable") = some (.bool false) ∧
    sysC9.engine.current = .obj (separatePartition (ownEntries st0)).1 ∧
    (travelImplRun true st0 optsMut).2.count InitEvent.engineConstructed = 1 :=
  claim_C9_engine_construction true st0 optsMut sysC9 rfl

/-- Claim C10: the dispatcher's phase check precedes its null-updater
check: a dispatcher call with a null or undefined updater made while the
store is initializing raises no null-updater error; the value is
forwarded as-is to the store's native untracked update primitive. -/
theorem claim_C10_phase_check_first (dev : Bool) (sys : Sys) (w : JSVal)
    (r : Option Bool) (hinit : sys.isInitializing = true)
    (hw : isNullish w = true) :
    travelSet dev sys (.val w) r =
      .ok { sys with store := zustandSetState sys.store w r } ∧
    travelSet dev sys (.val w) r ≠ .error (.typeError msgNullUpdater) := by
  have h1 : travelSet dev sys (.val w) r =
      .ok { sys with store := zustandSetState sys.store w r } := by
    rw [travelSet_initing dev sys (.val w) r hinit]
    rfl
  exact ⟨h1, by rw [h1]; simp⟩

/-- Witness for claim C10 at a concrete initializing dispatch of
undefined. -/
theorem claim_C10_witness :
    travelSet true sysInitC (.val .undefined) none =
      .ok { sysInitC with store := zustandSetState sysInitC.store .undefined none } ∧
    travelSet true sysInitC (.val .undefined) none ≠ .error (.typeError msgNullUpdater) :=
  claim_C10_phase_check_first true sysInitC .undefined none rfl rfl
